import Mathlib

/-!
Verification development for the yap-stt-api streaming speech-recognition
gateway.  The definitions below are shallow embeddings of the Python source:

* `aggStep` / `collectGo` / `collect` embed the batch-assembly loop of
  `MicroBatchScheduler._aggregator` (src/scheduler.py, lines 76-109);
* `deliver` / `runAgg` embed the result-delivery phase of the same loop
  (src/scheduler.py, lines 111-132);
* `tick` and its helpers embed the body of the per-message loop of
  `RivaASRServicer.StreamingRecognize` (src/riva_server.py, lines 100-207);
* `should_flush` embeds `EOSDecider.should_flush` (test/utils/audio.py);
* `i16_to_f32` / `pcm_roundtrip` embed the PCM16/float32 conversions
  (src/riva_server.py `pcm16_to_f32`, test/utils.py line 50).

External effects (the event-loop clock, the scheduler queue occupancy, the
inference worker, and future completion) are modelled as explicit oracle
inputs, since the Python code obtains them from the environment at each
await point.  Machine floats only ever hold values for which the source's
operations are exact (int16 divided by the power of two 32768, RMS energy
excepted, which is abstracted as an oracle), so rationals model them
faithfully.
-/

namespace YapStt

/-- Decidable equality for `Except`, needed to state concrete evaluations
of fallible operations. -/
instance {ε α : Type} [DecidableEq ε] [DecidableEq α] : DecidableEq (Except ε α) := fun x y =>
  match x, y with
  | .ok a, .ok b =>
    if h : a = b then .isTrue (by rw [h]) else .isFalse (by simp [h])
  | .error a, .error b =>
    if h : a = b then .isTrue (by rw [h]) else .isFalse (by simp [h])
  | .ok _, .error _ => .isFalse (by simp)
  | .error _, .ok _ => .isFalse (by simp)

/-- Python `str.strip()`: drop whitespace from both ends. -/
def pyStrip (s : String) : String :=
  ⟨((s.data.dropWhile Char.isWhitespace).reverse.dropWhile Char.isWhitespace).reverse⟩

/-! ## Micro-batch scheduler: batch assembly

`WorkItem` carries only the fields the aggregator logic inspects; the
waveform and future are identified by `seq` (unique per submission,
src/scheduler.py line 60).  An arrival `(t, a)` means: the queue dequeue
inside the aggregation window resolved at monotonic time `t` with item `a`.
-/

structure WItem where
  priority : Nat
  seq : Nat
  deriving DecidableEq, Repr

/-- State of one batch-assembly pass: the adopted batch priority `prio`
(the Python local `prio`), the batch collected so far (`batch_items`), the
items returned to the queue with their re-enqueue priority key
(`pushed_back`), and the collection `deadline`. -/
structure AggSt where
  prio : Nat
  batch : List WItem
  pushed : List (Nat × WItem)
  deadline : ℚ
  deriving DecidableEq, Repr

/-- One iteration of the inner `while` body of `_aggregator`
(src/scheduler.py lines 93-106) after an item `a` has been dequeued at time
`t`.  `first` is the Python local `first` — the anchor dequeued before the
window opened; note the source pushes back `first` itself (not the current
batch head) and keys it with the current `prio`, and that on preemption the
preempting item has already been appended to `pushed_back` as well. -/
def aggStep (window : ℚ) (first : WItem) (s : AggSt) (t : ℚ) (a : WItem) : AggSt :=
  if a.priority = s.prio then
    { s with batch := s.batch ++ [a] }
  else
    let pushed := s.pushed ++ [(a.priority, a)]
    if s.batch.length = 1 ∧ a.priority < s.prio then
      { prio := a.priority, batch := [a]
        pushed := pushed ++ [(s.prio, first)]
        deadline := t + window }
    else
      { s with pushed := pushed }

/-- The collection loop of `_aggregator` (src/scheduler.py lines 85-106):
consume timed arrivals while the batch is not full and the deadline has not
passed; an arrival at or past the deadline is a `wait_for` timeout and ends
the pass (the item stays in the queue). -/
def collectGo (window : ℚ) (maxBatch : Nat) (first : WItem) :
    AggSt → List (ℚ × WItem) → AggSt
  | s, [] => s
  | s, (t, a) :: rest =>
    if s.batch.length < maxBatch then
      if s.deadline - t ≤ 0 then s
      else collectGo window maxBatch first (aggStep window first s t a) rest
    else s

/-- A full batch-assembly pass anchored at `first`, dequeued at time `t0`
(src/scheduler.py lines 79-84 set up exactly this initial state). -/
def collect (window : ℚ) (maxBatch : Nat) (first : WItem) (t0 : ℚ)
    (arrivals : List (ℚ × WItem)) : AggSt :=
  collectGo window maxBatch first ⟨first.priority, [first], [], t0 + window⟩ arrivals

/-! ## Micro-batch scheduler: result delivery

`BItem` is a batch member as the delivery code sees it: the future's
identity and whether the future is already completed (e.g. cancelled by a
timed-out caller) at delivery time.  `deliver` embeds src/scheduler.py
lines 113-132: on a worker exception every not-yet-done future receives
that same exception; on success results are zipped in input order. -/

structure BItem where
  fid : Nat
  done : Bool
  deriving DecidableEq, Repr

inductive FutAssign where
  | exc (e : String)
  | res (text : String)
  deriving DecidableEq, Repr

/-- Future assignments performed for one batch given the worker outcome
(src/scheduler.py lines 113-132). -/
def deliver (outcome : Except String (List String)) (batch : List BItem) :
    List (Nat × FutAssign) :=
  match outcome with
  | .error e => (batch.filter (fun wi => !wi.done)).map (fun wi => (wi.fid, .exc e))
  | .ok texts =>
      (batch.zip texts).filterMap
        (fun p => if p.1.done then none else some (p.1.fid, .res p.2))

/-- The aggregator loop keeps running batch after batch; a worker exception
only `continue`s (src/scheduler.py line 123).  Each element pairs a batch
with its worker outcome; the result is every future assignment made. -/
def runAgg (batches : List (List BItem × Except String (List String))) :
    List (Nat × FutAssign) :=
  (batches.map (fun p => deliver p.2 p.1)).flatten

/-! ## PCM16 / float32 conversion

`np.frombuffer(buf, dtype=np.int16)` decodes little-endian byte pairs into
signed 16-bit integers; `.astype(np.float32) / 32768.0` then divides by the
power of two 32768.  Every int16 divided by 2^15 is exactly representable
in float32 (the mantissa needs at most 16 bits), so the rational value
below is the exact float32 value the source computes. -/

/-- Decode a little-endian PCM16 byte stream into signed samples
(`np.frombuffer(..., dtype=np.int16)`; the source raises on odd-length
buffers, which never arise for PCM16 streams — a trailing odd byte is
absent here). -/
def bytesToI16 : List Nat → List ℤ
  | lo :: hi :: rest =>
      (let u := lo + 256 * hi
       if u < 32768 then (u : ℤ) else (u : ℤ) - 65536) :: bytesToI16 rest
  | _ => []

/-- The per-sample conversion of `pcm16_to_f32` (src/riva_server.py line
27): `sample / 32768.0`, exact in float32. -/
def i16_to_f32 (s : ℤ) : ℚ := (s : ℚ) / 32768

/-- `pcm16_to_f32` (src/riva_server.py lines 26-27) on a byte buffer. -/
def pcm16_to_f32 (buf : List Nat) : List ℚ :=
  (bytesToI16 buf).map i16_to_f32

/-- `np.clip(x, lo, hi)`. -/
def clip (x lo hi : ℚ) : ℚ := max lo (min x hi)

/-- Truncation toward zero, the effect of `.astype(np.int16)` on an
in-range float (test/utils.py line 50). -/
def truncQ (q : ℚ) : ℤ := if 0 ≤ q then ⌊q⌋ else ⌈q⌉

/-- The round-trip PCM16 → float32 → PCM16:
`(np.clip(x, -1.0, 1.0) * 32768.0).astype(np.int16)` (test/utils.py line
50) applied to `sample / 32768.0`.  All intermediate float32 operations
are exact for int16 inputs, so the rational computation is faithful. -/
def pcm_roundtrip (s : ℤ) : ℤ := truncQ (clip (i16_to_f32 s) (-1) 1 * 32768)

/-! ## Streaming session state machine

The body of `RivaASRServicer.StreamingRecognize`'s `async for` loop
(src/riva_server.py lines 100-207) for messages after the first.  Byte
buffers are `List Nat`; the event-loop clock, queue occupancy, the awaited
partial-tick outcome, the RMS-energy silence test (floating point), and
segment-future completion are oracle fields of `Env`, read exactly where
the source reads them. -/

/-- Completion state of a scheduler future as observed by the session. -/
inductive FutSt where
  | pend
  | done (r : Except String String)

/-- Static per-session configuration (src/riva_server.py lines 42-63).
`max_ctx_bytes` is derived as `max_ctx_samps * BYTES_PER_SAMPLE`, exactly
as line 47 computes it. -/
structure Cfg where
  step_bytes : Nat
  max_ctx_samps : Nat
  decimation_when_hot : Bool
  hot_queue_threshold : ℚ
  decimation_min_interval_s : ℚ
  seg_len_bytes : Nat
  seg_min_bytes : Nat
  seg_overlap_bytes : Nat
  interim : Bool
  deriving DecidableEq, Repr

/-- `self.max_ctx_bytes = int(self.max_ctx_samps * BYTES_PER_SAMPLE)`
(src/riva_server.py line 47). -/
def Cfg.max_ctx_bytes (c : Cfg) : Nat := 2 * c.max_ctx_samps

/-- Per-session mutable state (src/riva_server.py lines 74-84).  A pending
segment is `(future id, segment index)`; future ids are allocated from
`seg_idx`, which is unique per cut. -/
structure Sess where
  ctx_buf : List Nat
  full_buf : List Nat
  since_last_emit : Nat
  last_emit_monotonic : ℚ
  pending_segments : List (Nat × Nat)
  seg_idx : Nat
  seg_start_bytes : Nat
  deriving DecidableEq, Repr

/-- Outcome of `await asyncio.wait_for(fut, timeout=self.tick_timeout_s)`
(src/riva_server.py lines 133-138). -/
inductive TickOutcome where
  | timeout
  | failed (e : String)
  | ok (text : String)

/-- Oracle inputs consumed by one loop iteration: the monotonic clock at
line 116, the queue fraction of line 119, the awaited partial result, the
`_is_silence` verdict on the tail window (floating-point RMS energy,
src/riva_server.py lines 65-68), and the completion state of each pending
segment future at drain time (line 189). -/
structure Env where
  now : ℚ
  queue_fraction : ℚ
  tick_result : TickOutcome
  is_silence : Bool
  futs : Nat → FutSt

/-- A frame emitted on the wire: an interim (`is_final=False`) or a final
(`is_final=True`) response.  The segment index on finals is ghost
information recording which segment produced the transcript. -/
inductive Resp where
  | interim (text : String)
  | final (text : String) (idx : Nat)
  deriving DecidableEq, Repr

/-- A waveform handed to `scheduler.submit` with its priority. -/
structure Submission where
  priority : Nat
  wf : List ℚ
  deriving DecidableEq, Repr

/-- Bound the rolling context (src/riva_server.py lines 109-110):
`del ctx_buf[:-max_ctx_bytes]` keeps the last `max_ctx_bytes` bytes —
except that when `max_ctx_bytes = 0` the Python slice `[:-0]` is empty and
nothing is deleted. -/
def trimCtx (maxBytes : Nat) (ctx : List Nat) : List Nat :=
  if ctx.length > maxBytes then
    if maxBytes = 0 then ctx else ctx.drop (ctx.length - maxBytes)
  else ctx

/-- Buffer and counter updates performed for a non-empty chunk before any
emission decision (src/riva_server.py lines 103-110). -/
def ingest (cfg : Cfg) (s : Sess) (chunk : List Nat) : Sess :=
  { s with
    full_buf := s.full_buf ++ chunk
    ctx_buf := trimCtx cfg.max_ctx_bytes (s.ctx_buf ++ chunk)
    since_last_emit := s.since_last_emit + chunk.length }

/-- The drain pass over `pending_segments` (src/riva_server.py lines
186-205): traverse in order, collect `(stripped text, idx)` for every
future already done (emitting only non-empty texts) together with the
`done_now` list; a future completed with an exception aborts the call with
`INTERNAL`. -/
def drainGo (futs : Nat → FutSt) :
    List (Nat × Nat) → Except String (List (String × Nat) × List (Nat × Nat))
  | [] => .ok ([], [])
  | (f, i) :: rest =>
    match futs f with
    | .pend => drainGo futs rest
    | .done (.error e) => .error e
    | .done (.ok t) =>
      match drainGo futs rest with
      | .error e => .error e
      | .ok (em, dn) =>
          .ok ((if pyStrip t ≠ "" then (pyStrip t, i) :: em else em), (f, i) :: dn)

/-- Drain completed segment finals (src/riva_server.py lines 186-207):
returns the finals to emit, in traversal order, and the new
`pending_segments` (`[p for p in pending_segments if p not in done_now]`,
line 207). -/
def drainPending (futs : Nat → FutSt) (pending : List (Nat × Nat)) :
    Except String (List (String × Nat) × List (Nat × Nat)) :=
  match drainGo futs pending with
  | .error e => .error e
  | .ok (em, dn) => .ok (em, pending.filter (fun p => ¬ p ∈ dn))

/-- The segmentation block run after a successful partial tick
(src/riva_server.py lines 154-183): decide `should_cut` from the hard
length bound or the silence test on the tail window, and on a cut submit
the segment at priority 0, record the pending future, and keep only the
last `overlap` bytes of `full_buf`.  Returns the updated session and the
priority-0 submission made (empty list when no cut). -/
def segmentStep (cfg : Cfg) (env : Env) (s2 : Sess) : Sess × List Submission :=
  let since_seg := s2.full_buf.length - s2.seg_start_bytes
  let should_cut :=
    if since_seg ≥ cfg.seg_len_bytes then true
    else if since_seg ≥ cfg.seg_min_bytes then env.is_silence
    else false
  if should_cut then
    let seg_pcm := pcm16_to_f32 (s2.full_buf.drop s2.seg_start_bytes)
    let keep := min cfg.seg_overlap_bytes s2.full_buf.length
    let full2 := if keep ≠ 0 then s2.full_buf.drop (s2.full_buf.length - keep) else []
    ({ s2 with
        full_buf := full2
        seg_start_bytes := 0
        pending_segments := s2.pending_segments ++ [(s2.seg_idx, s2.seg_idx)]
        seg_idx := s2.seg_idx + 1 },
     [⟨0, seg_pcm⟩])
  else (s2, [])

/-- One iteration of the `async for` loop for a non-first message carrying
`chunk` (src/riva_server.py lines 100-207).  Returns the new session
state, the responses yielded, and the waveforms submitted to the
scheduler; `.error` models `context.abort(INTERNAL, ...)`. -/
def tick (cfg : Cfg) (env : Env) (s : Sess) (chunk : List Nat) :
    Except String (Sess × List Resp × List Submission) :=
  if chunk.isEmpty then .ok (s, [], []) else
  let s1 := ingest cfg s chunk
  if s1.since_last_emit < cfg.step_bytes then .ok (s1, [], []) else
  if cfg.decimation_when_hot
      ∧ cfg.hot_queue_threshold ≤ env.queue_fraction
      ∧ env.now - s1.last_emit_monotonic < cfg.decimation_min_interval_s then
    .ok (s1, [], [])
  else
    let pcmAll := pcm16_to_f32 s1.ctx_buf
    let pcm := if pcmAll.length > cfg.max_ctx_samps then
        (if cfg.max_ctx_samps = 0 then pcmAll
         else pcmAll.drop (pcmAll.length - cfg.max_ctx_samps))
      else pcmAll
    let subs := [⟨1, pcm⟩]
    match env.tick_result with
    | .timeout => .ok (s1, [], subs)
    | .failed e => .error ("inference_error: " ++ e)
    | .ok text =>
      let s2 := { s1 with last_emit_monotonic := env.now, since_last_emit := 0 }
      let interims := if cfg.interim then [Resp.interim text] else []
      let cut := segmentStep cfg env s2
      match drainPending env.futs cut.1.pending_segments with
      | .error e => .error ("final_segment_error: " ++ e)
      | .ok (em, rest) =>
          .ok ({ cut.1 with pending_segments := rest },
               interims ++ em.map (fun p => Resp.final p.1 p.2),
               subs ++ cut.2)

/-! ## Settle gate (EOSDecider, test/utils/audio.py lines 33-107)

Timestamps are `Option ℚ` in seconds; the Python code tests them for
truthiness (`if self.vad_off_since`), so a stored timestamp of exactly 0.0
behaves like `None`. -/

/-- State and configuration of `EOSDecider` that `should_flush` reads. -/
structure EOSDecider where
  target_eos_ms : Nat
  quiet_ms : Nat
  vad_hangover_ms : Nat
  vad_off_since : Option ℚ
  last_partial_ts : Option ℚ
  has_end_word : Bool
  deriving DecidableEq, Repr

/-- Milliseconds contributed by a timestamp under Python truthiness:
`(now - ts) * 1000 if ts else 0.0` — `None` and `0.0` both yield 0. -/
def truthyMs (now : ℚ) (ts : Option ℚ) : ℚ :=
  match ts with
  | none => 0
  | some t => if t = 0 then 0 else (now - t) * 1000

/-- `EOSDecider.observed_silence_ms` (test/utils/audio.py lines 83-93). -/
def observed_silence_ms (d : EOSDecider) (now : ℚ) : ℚ :=
  max (truthyMs now d.vad_off_since) (truthyMs now d.last_partial_ts)

/-- `EOSDecider.should_flush` (test/utils/audio.py lines 95-107);
`max(80, self.quiet_ms // 2)` uses integer floor division. -/
def should_flush (d : EOSDecider) (now : ℚ) : Bool :=
  if observed_silence_ms d now ≥ (d.quiet_ms : ℚ) then true
  else if d.has_end_word ∧ observed_silence_ms d now ≥ ((max 80 (d.quiet_ms / 2) : Nat) : ℚ)
    then true
  else false

/-- Modelled from the claim's words (claim C8 / spec §4.4): observed
silence counts `max(now - vad_off_since, now - last_partial_ts)` with only
a NULL timestamp contributing 0 — a stored 0.0 still contributes. -/
def claimObservedMs (now : ℚ) (ts : Option ℚ) : ℚ :=
  match ts with
  | none => 0
  | some t => (now - t) * 1000

/-- The C8 claim's flush predicate, written from the spec's words. -/
def claimShouldFlush (d : EOSDecider) (now : ℚ) : Prop :=
  max (claimObservedMs now d.vad_off_since) (claimObservedMs now d.last_partial_ts)
      ≥ (d.quiet_ms : ℚ)
    ∨ (d.has_end_word = true
       ∧ max (claimObservedMs now d.vad_off_since) (claimObservedMs now d.last_partial_ts)
           ≥ ((max 80 (d.quiet_ms / 2) : Nat) : ℚ))

/-- The amended flush predicate: identical except that a zero timestamp
contributes 0, matching Python truthiness. -/
def amendedShouldFlush (d : EOSDecider) (now : ℚ) : Prop :=
  observed_silence_ms d now ≥ (d.quiet_ms : ℚ)
    ∨ (d.has_end_word = true
       ∧ observed_silence_ms d now ≥ ((max 80 (d.quiet_ms / 2) : Nat) : ℚ))

/-! ## gRPC request validation (src/riva_server.py lines 87-97, 247-252) -/

/-- Riva `AudioEncoding.LINEAR_PCM` enum value. -/
def LINEAR_PCM : Nat := 1

/-- The config fields the validation code reads.  A proto3 scalar that was
never set reads as 0 (`ENCODING_UNSPECIFIED` / absent rate). -/
structure RecognitionConfig where
  encoding : Nat
  sample_rate_hertz : Nat
  deriving DecidableEq, Repr

/-- Abort statuses the servicer can raise during validation. -/
inductive GStatus where
  | invalid_argument (msg : String)
  deriving DecidableEq, Repr

/-- Validation performed on the first streaming message
(src/riva_server.py lines 90-95): require `streaming_config`, then require
`LINEAR_PCM` encoding.  No other field is checked. -/
def validateStreamingFirst (streaming_config : Option RecognitionConfig) :
    Except GStatus Unit :=
  match streaming_config with
  | none => .error (.invalid_argument "first message must include streaming_config")
  | some cfg =>
    if cfg.encoding ≠ LINEAR_PCM then
      .error (.invalid_argument "only LINEAR_PCM supported")
    else .ok ()

/-- Validation performed by unary `Recognize` (src/riva_server.py lines
248-252): require `LINEAR_PCM`, then require the sample rate to be 16000,
where an unset (zero) rate defaults to 16000
(`sr = request.config.sample_rate_hertz or SAMPLE_RATE`). -/
def validateRecognize (cfg : RecognitionConfig) : Except GStatus Unit :=
  if cfg.encoding ≠ LINEAR_PCM then
    .error (.invalid_argument "only LINEAR_PCM supported")
  else
    let sr := if cfg.sample_rate_hertz = 0 then 16000 else cfg.sample_rate_hertz
    if sr ≠ 16000 then .error (.invalid_argument "expected 16 kHz")
    else .ok ()

/-! ## Concrete inputs used by counterexamples and witnesses -/

/-- Fresh session state at stream start (src/riva_server.py lines 74-84). -/
def sessInit : Sess := ⟨[], [], 0, 0, [], 0, 0⟩

/-- An environment with a hot queue (fraction 1), clock at 1 s, a
partial-tick timeout, and no completed futures. -/
def envIdle : Env := ⟨1, 1, .timeout, false, fun _ => .pend⟩

/-- Configuration with `step_bytes = 2`, decimation enabled at fraction
1/2 with a 5 s minimum interval. -/
def c3Cfg : Cfg := ⟨2, 8, true, 1/2, 5, 100, 50, 0, true⟩

/-- Configuration whose context cap is zero (`max_ctx_seconds` small
enough that `int(max_ctx_seconds * 16000) = 0`) and `step_bytes = 100`. -/
def c6Cfg : Cfg := ⟨100, 0, false, 0, 0, 10, 5, 2, true⟩

/-- Configuration with a one-sample context cap and `step_bytes = 2`,
decimation disabled. -/
def c6WitCfg : Cfg := ⟨2, 1, false, 0, 0, 10, 5, 2, true⟩

/-- Future states at a first drain: segment very-first future (id 0) still
pending, segment future 1 completed with text "b". -/
def c1FutsPass1 : Nat → FutSt := fun n => if n = 1 then .done (.ok "b") else .pend

/-- Future states at a later drain: every future completed with "a". -/
def c1FutsPass2 : Nat → FutSt := fun _ => .done (.ok "a")

/-- A settle-gate state whose `vad_off_since` is the float 0.0 (not None):
quiet threshold 140 ms, no partial seen, no EndWord. -/
def c8State : EOSDecider := ⟨220, 140, 160, some 0, none, false⟩

/-! ## Helper lemmas -/

/-- The segmentation step never touches the rolling context buffer. -/
theorem segmentStep_ctx (cfg : Cfg) (env : Env) (s2 : Sess) :
    (segmentStep cfg env s2).1.ctx_buf = s2.ctx_buf := by
  simp only [segmentStep]
  split_ifs <;> rfl

/-- Every submission made by the segmentation step has priority 0. -/
theorem segmentStep_subs (cfg : Cfg) (env : Env) (s2 : Sess) :
    ∀ sub ∈ (segmentStep cfg env s2).2, sub.priority = 0 := by
  simp only [segmentStep]
  split_ifs <;> simp

/-- A positive cap makes the context trim effective. -/
theorem trimCtx_length_le (maxB : Nat) (l : List Nat) (h : 1 ≤ maxB) :
    (trimCtx maxB l).length ≤ maxB := by
  unfold trimCtx
  split_ifs with h1 h2
  · omega
  · simp only [List.length_drop]
    omega
  · omega

/-- The context trim only evicts from the front. -/
theorem trimCtx_suffix (maxB : Nat) (l : List Nat) : trimCtx maxB l <:+ l := by
  unfold trimCtx
  split_ifs with h1 h2
  · exact List.suffix_refl l
  · exact List.drop_suffix _ _
  · exact List.suffix_refl l

/-- The sample-level clamp `pcm[-max_ctx_samps:]` keeps at most
`max_ctx_samps` samples and only the most recent ones, for a positive
cap. -/
theorem partialSub_ok (samps : Nat) (P : List ℚ) (h : 1 ≤ samps) :
    (if P.length > samps then (if samps = 0 then P else P.drop (P.length - samps)) else P).length
        ≤ samps
    ∧ (if P.length > samps then (if samps = 0 then P else P.drop (P.length - samps)) else P)
        <:+ P := by
  constructor
  · split_ifs with g1 g2
    · omega
    · simp only [List.length_drop]; omega
    · omega
  · split_ifs with g1 g2
    · exact List.suffix_refl _
    · exact List.drop_suffix _ _
    · exact List.suffix_refl _

/-- One aggregation-loop iteration preserves non-emptiness and priority
homogeneity of the batch. -/
theorem aggStep_inv (window : ℚ) (first : WItem) (s : AggSt) (t : ℚ) (a : WItem)
    (h1 : s.batch ≠ []) (h2 : ∀ x ∈ s.batch, x.priority = s.prio) :
    (aggStep window first s t a).batch ≠ []
      ∧ ∀ x ∈ (aggStep window first s t a).batch,
          x.priority = (aggStep window first s t a).prio := by
  unfold aggStep
  split_ifs with hp hpre
  · refine ⟨by simp, ?_⟩
    intro x hx
    simp only [List.mem_append, List.mem_singleton] at hx
    rcases hx with hx | hx
    · exact h2 x hx
    · simpa [hx] using hp
  · refine ⟨by simp, ?_⟩
    intro x hx
    simp only [List.mem_singleton] at hx
    simp [hx]
  · exact ⟨h1, h2⟩

/-- The collection loop preserves non-emptiness and priority homogeneity
of the batch. -/
theorem collectGo_inv (window : ℚ) (maxB : Nat) (first : WItem) :
    ∀ (arrivals : List (ℚ × WItem)) (s : AggSt), s.batch ≠ [] →
      (∀ x ∈ s.batch, x.priority = s.prio) →
      (collectGo window maxB first s arrivals).batch ≠ []
        ∧ ∀ x ∈ (collectGo window maxB first s arrivals).batch,
            x.priority = (collectGo window maxB first s arrivals).prio := by
  intro arrivals
  induction arrivals with
  | nil => intro s h1 h2; exact ⟨h1, h2⟩
  | cons ta rest ih =>
    intro s h1 h2
    obtain ⟨t, a⟩ := ta
    unfold collectGo
    split_ifs with hfull htime
    · exact ⟨h1, h2⟩
    · obtain ⟨g1, g2⟩ := aggStep_inv window first s t a h1 h2
      exact ih _ g1 g2
    · exact ⟨h1, h2⟩

/-- The emitted finals and the `done_now` list of a drain pass are
order-preserving sub-sequences of the pending list. -/
theorem drainGo_sublist (futs : Nat → FutSt) :
    ∀ (pend : List (Nat × Nat)) (em : List (String × Nat)) (dn : List (Nat × Nat)),
      drainGo futs pend = .ok (em, dn) →
      (em.map Prod.snd).Sublist (pend.map Prod.snd) ∧ dn.Sublist pend := by
  intro pend
  induction pend with
  | nil =>
    intro em dn h
    simp only [drainGo] at h
    obtain ⟨h1, h2⟩ : em = [] ∧ dn = [] := by
      cases h; exact ⟨rfl, rfl⟩
    simp [h1, h2]
  | cons fi rest ih =>
    intro em dn h
    obtain ⟨f, i⟩ := fi
    simp only [drainGo] at h
    cases hf : futs f with
    | pend =>
      rw [hf] at h
      obtain ⟨h1, h2⟩ := ih em dn h
      exact ⟨h1.trans (List.sublist_cons_of_sublist _ (List.Sublist.refl _)),
             h2.trans (List.sublist_cons_of_sublist _ (List.Sublist.refl _))⟩
    | done r =>
      cases r with
      | error e => rw [hf] at h; cases h
      | ok t =>
        rw [hf] at h
        cases hg : drainGo futs rest with
        | error e => rw [hg] at h; cases h
        | ok p =>
          obtain ⟨em', dn'⟩ := p
          rw [hg] at h
          obtain ⟨g1, g2⟩ := ih em' dn' hg
          have hem : em = (if pyStrip t ≠ "" then (pyStrip t, i) :: em' else em') := by
            cases h; rfl
          have hdn : dn = (f, i) :: dn' := by cases h; rfl
          subst hem hdn
          constructor
          · split_ifs with hs
            · simpa using List.Sublist.cons₂ i g1
            · exact g1.trans (List.sublist_cons_of_sublist _ (List.Sublist.refl _))
          · exact List.Sublist.cons₂ (f, i) g2

/-! ## Claim theorems -/

/-- Claim C1, counterexample.  The claim says the drain stops at the first
not-yet-complete future, so nothing would be emitted while segment 0 is
pending.  In fact the drain skips pending futures: with segment 0 pending
and segment 1 complete, the final for segment 1 is emitted first and the
final for segment 0 only on a later pass — finals reach the wire in
completion order, here segment 1 before segment 0. -/
theorem c1_counterexample :
    drainPending c1FutsPass1 [(0, 0), (1, 1)] = .ok ([("b", 1)], [(0, 0)])
    ∧ drainPending c1FutsPass2 [(0, 0)] = .ok ([("a", 0)], []) :=
  ⟨by decide, by decide⟩

/-- Claim C1, amended: the drain emits finals for every already-completed
future in pending-list order, skipping (not stopping at) incomplete ones;
within one drain pass the emitted segment indices are therefore strictly
increasing (a sub-sequence of the pending order), and finals are in global
cut order exactly when futures complete in cut order. -/
theorem c1_drain_order (futs : Nat → FutSt) (pend : List (Nat × Nat))
    (em : List (String × Nat)) (rest : List (Nat × Nat))
    (hsort : (pend.map Prod.snd).Pairwise (· < ·))
    (h : drainPending futs pend = .ok (em, rest)) :
    (em.map Prod.snd).Sublist (pend.map Prod.snd)
      ∧ (em.map Prod.snd).Pairwise (· < ·) := by
  unfold drainPending at h
  cases hg : drainGo futs pend with
  | error e => rw [hg] at h; cases h
  | ok p =>
    obtain ⟨em', dn⟩ := p
    rw [hg] at h
    have hem : em = em' := by cases h; rfl
    subst hem
    have hsub := (drainGo_sublist futs pend em dn hg).1
    exact ⟨hsub, List.Pairwise.sublist hsub hsort⟩

/-- Witness for C1: the amended theorem applied to the first drain pass of
the counterexample scenario. -/
theorem c1_witness :
    (([("b", 1)] : List (String × Nat)).map Prod.snd).Sublist
        (([(0, 0), (1, 1)] : List (Nat × Nat)).map Prod.snd)
    ∧ (([("b", 1)] : List (String × Nat)).map Prod.snd).Pairwise (· < ·) :=
  c1_drain_order c1FutsPass1 [(0, 0), (1, 1)] [("b", 1)] [(0, 0)] (by decide) (by decide)

/-- Claim C2, counterexample.  With `window_ms = 10`, `max_batch = 4`, an
anchor of priority 1 and a second priority-1 item already collected, a
priority-0 arrival does NOT preempt: the batch stays at priority 1 with
both items and the priority-0 item is merely returned to the queue,
because the source preempts only when `len(batch_items) == 1`
(src/scheduler.py line 100). -/
theorem c2_counterexample :
    collect 10 4 ⟨1, 0⟩ 0 [(1, ⟨1, 1⟩), (2, ⟨0, 2⟩)]
      = ⟨1, [⟨1, 0⟩, ⟨1, 1⟩], [(0, ⟨0, 2⟩)], 10⟩ := by
  norm_num [collect, collectGo, aggStep]

/-- Claim C2, amended: preemption happens only when the current batch
holds exactly one item.  In that case the aggregator adopts the higher
priority, starts a fresh batch with the preempting item, resets the
deadline to the arrival time plus the window, and returns the original
anchor to the queue keyed at the old batch priority — the preempting item
itself is also returned to the queue (a duplicate enqueue, src/scheduler.py
lines 98-102).  With two or more items the arrival is only pushed back. -/
theorem c2_preempt_only_singleton (window t : ℚ) (maxB : Nat) (first a : WItem)
    (s : AggSt) (rest : List (ℚ × WItem))
    (hlen : s.batch.length = 1) (hp : a.priority < s.prio)
    (ht : ¬ s.deadline - t ≤ 0) (hm : 1 < maxB) :
    collectGo window maxB first s ((t, a) :: rest)
      = collectGo window maxB first
          ⟨a.priority, [a], s.pushed ++ [(a.priority, a), (s.prio, first)], t + window⟩ rest := by
  have hstep : aggStep window first s t a
      = ⟨a.priority, [a], s.pushed ++ [(a.priority, a), (s.prio, first)], t + window⟩ := by
    unfold aggStep
    rw [if_neg (Nat.ne_of_lt hp), if_pos ⟨hlen, hp⟩]
    simp
  show (if s.batch.length < maxB then
      if s.deadline - t ≤ 0 then s
      else collectGo window maxB first (aggStep window first s t a) rest
    else s) = _
  rw [if_pos (by omega), if_neg ht, hstep]

/-- Witness for C2: a singleton priority-1 batch preempted by a priority-0
arrival at time 1 inside the window. -/
theorem c2_witness :
    collectGo 10 4 ⟨1, 0⟩ ⟨1, [⟨1, 0⟩], [], 10⟩ [(1, ⟨0, 5⟩)]
      = ⟨0, [⟨0, 5⟩], [(0, ⟨0, 5⟩), (1, ⟨1, 0⟩)], 11⟩ := by
  rw [c2_preempt_only_singleton 10 1 4 ⟨1, 0⟩ ⟨0, 5⟩ ⟨1, [⟨1, 0⟩], [], 10⟩ [] rfl
        (by norm_num) (by norm_num) (by norm_num)]
  show AggSt.mk _ _ _ _ = _
  norm_num

/-- Claim C3, counterexample.  A decimated tick (`decimation_when_hot`,
hot queue, inside the minimum interval, cadence crossed) merely
`continue`s: the resulting state keeps `since_last_emit = 2`, it is NOT
reset to 0 as the claim demands, so the skipped bytes do carry over. -/
theorem c3_counterexample :
    tick c3Cfg envIdle sessInit [0, 0]
      = .ok ((⟨[0, 0], [0, 0], 2, 0, [], 0, 0⟩ : Sess), [], [])
    ∧ (⟨[0, 0], [0, 0], 2, 0, [], 0, 0⟩ : Sess).since_last_emit ≠ 0 := by
  constructor
  · norm_num [tick, ingest, trimCtx, Cfg.max_ctx_bytes, c3Cfg, envIdle, sessInit]
  · decide

/-- Claim C3, amended: under decimation conditions
(`decimation_when_hot`, `queue_fraction ≥ hot_queue_fraction`,
`now - last_emit_monotonic < decimation_min_interval_ms`) a tick that has
crossed the cadence is dropped with no emission and no submission, and
`bytes_since_last_emit` is NOT reset: it keeps the accumulated value
(`since_last_emit + len(chunk)`), and `last_emit_monotonic` is unchanged,
so the skipped bytes carry over to the next cadence check. -/
theorem c3_decimated_tick_keeps_counter (cfg : Cfg) (env : Env) (s : Sess)
    (chunk : List Nat)
    (hne : chunk ≠ [])
    (hd : cfg.decimation_when_hot = true)
    (hq : cfg.hot_queue_threshold ≤ env.queue_fraction)
    (ht : env.now - s.last_emit_monotonic < cfg.decimation_min_interval_s)
    (hstep : cfg.step_bytes ≤ s.since_last_emit + chunk.length) :
    tick cfg env s chunk = .ok (ingest cfg s chunk, [], [])
      ∧ (ingest cfg s chunk).since_last_emit = s.since_last_emit + chunk.length
      ∧ (ingest cfg s chunk).last_emit_monotonic = s.last_emit_monotonic := by
  refine ⟨?_, rfl, rfl⟩
  unfold tick
  rw [if_neg (by simp [List.isEmpty_iff, hne])]
  rw [if_neg (by simp only [ingest]; omega)]
  rw [if_pos ⟨by simp [hd], hq, ht⟩]

/-- Witness for C3: the amended theorem applied at the counterexample's
concrete input. -/
theorem c3_witness :
    tick c3Cfg envIdle sessInit [0, 0] = .ok (ingest c3Cfg sessInit [0, 0], [], [])
      ∧ (ingest c3Cfg sessInit [0, 0]).since_last_emit
          = sessInit.since_last_emit + ([0, 0] : List Nat).length
      ∧ (ingest c3Cfg sessInit [0, 0]).last_emit_monotonic
          = sessInit.last_emit_monotonic :=
  c3_decimated_tick_keeps_counter c3Cfg envIdle sessInit [0, 0] (by decide) rfl
    (by norm_num [c3Cfg, envIdle]) (by norm_num [c3Cfg, envIdle, sessInit])
    (by norm_num [c3Cfg, sessInit])

/-- Claim C4 (confirmed): when the worker raises for a batch, every
not-yet-completed future in the batch is resolved with that same
exception, no future in the batch receives a text result, and the
aggregator loop goes on to deliver the remaining batches
(src/scheduler.py lines 116-123). -/
theorem c4_worker_error_delivery (e : String) (batch : List BItem)
    (rest : List (List BItem × Except String (List String))) :
    (∀ wi ∈ batch, wi.done = false → (wi.fid, FutAssign.exc e) ∈ deliver (.error e) batch)
    ∧ (∀ fid t, (fid, FutAssign.res t) ∉ deliver (.error e) batch)
    ∧ runAgg ((batch, .error e) :: rest) = deliver (.error e) batch ++ runAgg rest := by
  refine ⟨?_, ?_, ?_⟩
  · intro wi hwi hdone
    simp only [deliver, List.mem_map, List.mem_filter]
    exact ⟨wi, ⟨hwi, by simp [hdone]⟩, rfl⟩
  · intro fid t hmem
    simp only [deliver, List.mem_map, List.mem_filter] at hmem
    obtain ⟨a, _, ha⟩ := hmem
    simp at ha
  · simp [runAgg]

/-- Witness for C4: a two-batch run where the first batch fails with
"boom"; its sole pending future receives the error, and delivery of the
second batch still happens. -/
theorem c4_witness :
    (0, FutAssign.exc "boom") ∈ deliver (.error "boom") [⟨0, false⟩]
    ∧ runAgg [([⟨0, false⟩], .error "boom"), ([⟨1, false⟩], .ok ["hi"])]
        = deliver (.error "boom") [⟨0, false⟩]
          ++ runAgg [([⟨1, false⟩], .ok ["hi"])] :=
  ⟨(c4_worker_error_delivery "boom" [⟨0, false⟩] [([⟨1, false⟩], .ok ["hi"])]).1
      ⟨0, false⟩ (by simp) rfl,
   (c4_worker_error_delivery "boom" [⟨0, false⟩] [([⟨1, false⟩], .ok ["hi"])]).2.2⟩

/-- Claim C5 (confirmed): every batch assembled by the aggregator is
non-empty (it retains an anchor: the original first item, or the
preempting item that replaced it) and homogeneous — all its items carry
the batch's priority (src/scheduler.py lines 79-106). -/
theorem c5_batch_nonempty_homogeneous (window : ℚ) (maxB : Nat) (first : WItem)
    (t0 : ℚ) (arrivals : List (ℚ × WItem)) :
    (collect window maxB first t0 arrivals).batch ≠ []
      ∧ ∀ x ∈ (collect window maxB first t0 arrivals).batch,
          x.priority = (collect window maxB first t0 arrivals).prio := by
  refine collectGo_inv window maxB first arrivals _ (by simp) ?_
  intro x hx
  simp only [List.mem_singleton] at hx
  simp [hx]

/-- Claim C6, counterexample.  With a zero context cap
(`max_ctx_seconds` small enough that `max_ctx_samps = 0`), the Python
slice `del ctx_buf[:-0]` deletes nothing, so after a 2-byte chunk the
context holds 2 bytes while `max_ctx_bytes = 0`: the bound
`len(ctx_buf) ≤ max_ctx_bytes` fails. -/
theorem c6_counterexample :
    tick c6Cfg envIdle sessInit [0, 0]
      = .ok ((⟨[0, 0], [0, 0], 2, 0, [], 0, 0⟩ : Sess), [], [])
    ∧ c6Cfg.max_ctx_bytes < (⟨[0, 0], [0, 0], 2, 0, [], 0, 0⟩ : Sess).ctx_buf.length :=
  ⟨by decide, by decide⟩

/-- Claim C6, amended: for any session whose context cap is positive
(`max_ctx_samps ≥ 1`), after a non-empty chunk is processed the rolling
context satisfies `len(ctx_buf) ≤ max_ctx_bytes` with only the oldest
bytes evicted from the front, and every partial-tick waveform submitted
holds at most `max_ctx_samps` samples, a suffix (the most recent part) of
the context's samples.  With a zero cap the `[:-0]` slice quirk disables
both trims. -/
theorem c6_ctx_bound_and_recent_waveform (cfg : Cfg) (env : Env) (s : Sess)
    (chunk : List Nat) (s' : Sess) (out : List Resp) (subs : List Submission)
    (hpos : 1 ≤ cfg.max_ctx_samps) (hne : chunk ≠ [])
    (h : tick cfg env s chunk = .ok (s', out, subs)) :
    s'.ctx_buf.length ≤ cfg.max_ctx_bytes
    ∧ s'.ctx_buf <:+ s.ctx_buf ++ chunk
    ∧ ∀ sub ∈ subs, sub.priority = 1 →
        sub.wf.length ≤ cfg.max_ctx_samps ∧ sub.wf <:+ pcm16_to_f32 s'.ctx_buf := by
  have hbytes : 1 ≤ cfg.max_ctx_bytes := by
    simp only [Cfg.max_ctx_bytes]; omega
  have hctxlen : (ingest cfg s chunk).ctx_buf.length ≤ cfg.max_ctx_bytes :=
    trimCtx_length_le _ _ hbytes
  have hctxsuf : (ingest cfg s chunk).ctx_buf <:+ s.ctx_buf ++ chunk :=
    trimCtx_suffix _ _
  simp only [tick] at h
  split at h
  · next hemp => exact absurd (by simpa using hemp) hne
  · split at h
    · injection h with h'
      obtain ⟨rfl, rfl, rfl⟩ : s' = ingest cfg s chunk ∧ out = [] ∧ subs = [] := by
        injection h' with a b; injection b with c d; exact ⟨a.symm, c.symm, d.symm⟩
      exact ⟨hctxlen, hctxsuf, by simp⟩
    · split at h
      · injection h with h'
        obtain ⟨rfl, rfl, rfl⟩ : s' = ingest cfg s chunk ∧ out = [] ∧ subs = [] := by
          injection h' with a b; injection b with c d; exact ⟨a.symm, c.symm, d.symm⟩
        exact ⟨hctxlen, hctxsuf, by simp⟩
      · split at h
        · next heq =>
          injection h with h'
          injection h' with a b
          injection b with c d
          subst a; subst c; subst d
          refine ⟨hctxlen, hctxsuf, ?_⟩
          intro sub hsub hprio
          simp only [List.mem_singleton] at hsub
          subst hsub
          dsimp only
          exact partialSub_ok cfg.max_ctx_samps _ hpos
        · next e heq => exact Except.noConfusion h
        · next text heq =>
          split at h
          · exact Except.noConfusion h
          · next em rest2 heq2 =>
            injection h with h'
            injection h' with a b
            injection b with c d
            subst a; subst c; subst d
            rw [segmentStep_ctx]
            refine ⟨hctxlen, hctxsuf, ?_⟩
            intro sub hsub hprio
            simp only [List.mem_append, List.mem_singleton] at hsub
            rcases hsub with rfl | hsub
            · dsimp only
              exact partialSub_ok cfg.max_ctx_samps _ hpos
            · have := segmentStep_subs cfg env _ sub hsub
              rw [this] at hprio
              exact absurd hprio (by norm_num)

/-- Witness for C6: a 4-byte chunk against a one-sample cap; the context
is trimmed to 2 bytes and the submitted waveform holds the single most
recent sample. -/
theorem c6_witness :
    (⟨[0, 0], [0, 0, 0, 0], 4, 0, [], 0, 0⟩ : Sess).ctx_buf.length ≤ c6WitCfg.max_ctx_bytes
    ∧ (⟨[0, 0], [0, 0, 0, 0], 4, 0, [], 0, 0⟩ : Sess).ctx_buf
        <:+ sessInit.ctx_buf ++ [0, 0, 0, 0]
    ∧ ∀ sub ∈ [(⟨1, [0]⟩ : Submission)], sub.priority = 1 →
        sub.wf.length ≤ c6WitCfg.max_ctx_samps
        ∧ sub.wf <:+ pcm16_to_f32 (⟨[0, 0], [0, 0, 0, 0], 4, 0, [], 0, 0⟩ : Sess).ctx_buf :=
  c6_ctx_bound_and_recent_waveform c6WitCfg envIdle sessInit [0, 0, 0, 0]
    ⟨[0, 0], [0, 0, 0, 0], 4, 0, [], 0, 0⟩ [] [⟨1, [0]⟩]
    (by norm_num [c6WitCfg]) (by decide)
    (by norm_num [tick, ingest, trimCtx, Cfg.max_ctx_bytes, pcm16_to_f32, bytesToI16,
          i16_to_f32, c6WitCfg, envIdle, sessInit])

/-- Claim C7, counterexample.  A first streaming message whose config is
LINEAR_PCM at 8000 Hz is ACCEPTED by `StreamingRecognize` — the streaming
path never inspects `sample_rate_hertz` (src/riva_server.py lines 90-95),
so "not ... at a 16 kHz sample rate fails with INVALID_ARGUMENT" is false
for the streaming case. -/
theorem c7_counterexample :
    validateStreamingFirst (some ⟨LINEAR_PCM, 8000⟩) = .ok ()
    ∧ (8000 : Nat) ≠ 16000 :=
  ⟨rfl, by decide⟩

/-- Claim C7, amended: a first streaming message without
`streaming_config` fails with INVALID_ARGUMENT; the streaming path
accepts a config iff its encoding is LINEAR_PCM (the sample rate is not
checked); unary `Recognize` accepts iff the encoding is LINEAR_PCM and the
rate is 16000 or unset (an unset rate defaults to 16000). -/
theorem c7_validation (cfg : RecognitionConfig) :
    validateStreamingFirst none
        = .error (.invalid_argument "first message must include streaming_config")
    ∧ (validateStreamingFirst (some cfg) = .ok () ↔ cfg.encoding = LINEAR_PCM)
    ∧ (validateRecognize cfg = .ok ()
        ↔ cfg.encoding = LINEAR_PCM
          ∧ (cfg.sample_rate_hertz = 0 ∨ cfg.sample_rate_hertz = 16000)) := by
  refine ⟨rfl, ?_, ?_⟩
  · constructor
    · intro h
      by_cases henc : cfg.encoding = LINEAR_PCM
      · exact henc
      · simp [validateStreamingFirst, henc] at h
    · intro henc
      simp [validateStreamingFirst, henc]
  · constructor
    · intro h
      by_cases henc : cfg.encoding = LINEAR_PCM
      · refine ⟨henc, ?_⟩
        by_cases hz : cfg.sample_rate_hertz = 0
        · exact Or.inl hz
        · by_cases h16 : cfg.sample_rate_hertz = 16000
          · exact Or.inr h16
          · exfalso
            simp [validateRecognize, henc, hz, h16] at h
      · exfalso
        simp [validateRecognize, henc] at h
    · rintro ⟨henc, hsr⟩
      rcases hsr with hz | h16
      · simp [validateRecognize, henc, hz]
      · simp [validateRecognize, henc, h16]

/-- Claim C8, counterexample.  A settle-gate state whose `vad_off_since`
is the float 0.0 at clock 1 s: the claim's formula (`null` contributes 0,
a non-null timestamp contributes `now - ts`) yields 1000 ms ≥ 140 ms and
demands a flush, but the code's truthiness test treats 0.0 like None and
`should_flush` returns false. -/
theorem c8_counterexample :
    should_flush c8State 1 = false ∧ claimShouldFlush c8State 1 := by
  constructor
  · norm_num [should_flush, observed_silence_ms, truthyMs, c8State]
  · norm_num [claimShouldFlush, claimObservedMs, c8State]

/-- Claim C8, amended: for every settle-gate state, `should_flush()` is
true iff `observed_silence_ms ≥ quiet_ms`, or `has_end_word` and
`observed_silence_ms ≥ max(80, quiet_ms // 2)`, where
`observed_silence_ms = max(now - vad_off_since, now - last_partial_ts)`
and a timestamp that is null OR exactly zero contributes 0 (Python tests
the timestamps for truthiness). -/
theorem c8_flush_iff (d : EOSDecider) (now : ℚ) :
    should_flush d now = true ↔ amendedShouldFlush d now := by
  unfold should_flush amendedShouldFlush
  split_ifs with h1 h2
  · exact iff_of_true rfl (Or.inl h1)
  · exact iff_of_true rfl (Or.inr ⟨h2.1, h2.2⟩)
  · refine iff_of_false (by simp) ?_
    intro hc
    rcases hc with hc | hc
    · exact h1 hc
    · exact h2 ⟨hc.1, hc.2⟩

/-- Claim C9 (confirmed): for every int16 sample `s`, `s / 32768.0` lies
in [-1, 1], and `int(clip(s / 32768.0, -1, 1) * 32768)` equals `s`
(PCM16 → float32 → PCM16 is lossless).  All the float32 operations
involved are exact, so the rational computation decides the claim. -/
theorem c9_pcm16_roundtrip (s : ℤ) (hlo : -32768 ≤ s) (hhi : s ≤ 32767) :
    (-1 ≤ i16_to_f32 s ∧ i16_to_f32 s ≤ 1) ∧ pcm_roundtrip s = s := by
  have h32 : (0 : ℚ) < 32768 := by norm_num
  have hlo' : (-1 : ℚ) ≤ i16_to_f32 s := by
    unfold i16_to_f32
    rw [le_div_iff₀ h32]
    have : (-32768 : ℚ) ≤ (s : ℚ) := by exact_mod_cast hlo
    linarith
  have hhi' : i16_to_f32 s ≤ 1 := by
    unfold i16_to_f32
    rw [div_le_one h32]
    have : (s : ℚ) ≤ 32767 := by exact_mod_cast hhi
    linarith
  refine ⟨⟨hlo', hhi'⟩, ?_⟩
  unfold pcm_roundtrip
  have hclip : clip (i16_to_f32 s) (-1) 1 = i16_to_f32 s := by
    unfold clip
    rw [min_eq_left hhi', max_eq_right hlo']
  rw [hclip]
  have hmul : i16_to_f32 s * 32768 = (s : ℚ) := by
    unfold i16_to_f32
    field_simp
  rw [hmul]
  unfold truncQ
  split_ifs with hs
  · exact Int.floor_intCast s
  · exact Int.ceil_intCast s

/-- Witness for C9: the extreme sample -32768 round-trips to itself and
maps to exactly -1. -/
theorem c9_witness :
    (-1 ≤ i16_to_f32 (-32768) ∧ i16_to_f32 (-32768) ≤ 1)
    ∧ pcm_roundtrip (-32768) = -32768 :=
  c9_pcm16_roundtrip (-32768) (by norm_num) (by norm_num)

/-- Claim C10 (confirmed): a non-first inbound message with empty
`audio_content` is skipped entirely — the session state (context buffer,
full buffer, cadence counters, segmentation state, pending segments) is
unchanged, nothing is emitted, and nothing is submitted
(src/riva_server.py lines 100-101). -/
theorem c10_empty_chunk_noop (cfg : Cfg) (env : Env) (s : Sess) :
    tick cfg env s [] = .ok (s, [], []) := rfl

end YapStt
